import Mathlib

/-!
Shallow embedding of `src/reactivity.js` (johannesstricker/reactivity).

The JS module wraps plain data in proxies.  Every `get` records a
per-(root, property) symbol into a process-wide `effects` set; every `set`
notifies each registered watcher whose recorded `dependencies` contain the
written property's symbol.  Watchers guard against self-triggering with a
per-watcher `callCount` that throws `RecursiveWatch` past `RECURSION_LIMIT`.
Debounced (async) watchers coalesce triggers into one run at the next tick.

JS objects are trees here; proxy handles are (root id, access path); the
symbol registry is per root because the source shares `symbolsForProperties`
with every nested proxy it creates (`reactiveProxyHandler.get`, line 72).
-/

namespace Reactivity

/-- A property identifier as seen by a proxy trap: a record field name or a
sequence index (JS passes indices as property strings; each index is its own
registry entry, mirrored here by a separate constructor). -/
inductive PKey where
  | str (name : String)
  | idx (n : Nat)
deriving DecidableEq, Repr

/-- JSON-like underlying data: the plain values the library wraps. -/
inductive Value where
  | vundefined
  | vnum (n : Int)
  | vstr (s : String)
  | vbool (b : Bool)
  | obj (fields : List (String × Value))
  | arr (elems : List Value)
deriving Inhabited, Repr

/-- Association-list read of an object field (JS property lookup). -/
def assocGet : List (String × Value) → String → Option Value
  | [], _ => none
  | (k, v) :: rest, name => if k = name then some v else assocGet rest name

/-- Association-list write: replaces an existing field in place, otherwise
appends (JS objects keep insertion order and append new keys at the end). -/
def assocSet : List (String × Value) → String → Value → List (String × Value)
  | [], name, v => [(name, v)]
  | (k, w) :: rest, name, v =>
      if k = name then (k, v) :: rest else (k, w) :: assocSet rest name v

/-- Association-list delete (JS `delete obj.prop`). -/
def assocDel : List (String × Value) → String → List (String × Value)
  | [], _ => []
  | (k, w) :: rest, name =>
      if k = name then rest else (k, w) :: assocDel rest name

/-- `Reflect.get(target, property)`: a missing property reads as undefined. -/
def Value.getProp : Value → PKey → Value
  | .obj fs, .str k => (assocGet fs k).getD .vundefined
  | .arr es, .idx n => es.getD n .vundefined
  | _, _ => .vundefined

/-- `Reflect.set(target, property, v)` on a record or sequence target. -/
def Value.setProp : Value → PKey → Value → Value
  | .obj fs, .str k, v => .obj (assocSet fs k v)
  | .arr es, .idx n, v => .arr (es.set n v)
  | t, _, _ => t

/-- `Reflect.deleteProperty(target, property)`; deleting a sequence index
leaves a hole, as in JS. -/
def Value.delProp : Value → PKey → Value
  | .obj fs, .str k => .obj (assocDel fs k)
  | .arr es, .idx n => .arr (es.set n .vundefined)
  | t, _ => t

/-- Follow a chain of property reads down a value tree. -/
def navigate : Value → List PKey → Value
  | v, [] => v
  | v, k :: ks => navigate (v.getProp k) ks

/-- Functional update at a nested position: JS mutates the nested target
object in place; on tree-shaped data that equals rebuilding the spine. -/
def setPath : Value → List PKey → PKey → Value → Value
  | t, [], k, v => t.setProp k v
  | t, p :: ps, k, v => t.setProp p (setPath (t.getProp p) ps k v)

/-- Functional delete at a nested position. -/
def delPath : Value → List PKey → PKey → Value
  | t, [], k => t.delProp k
  | t, p :: ps, k => t.setProp p (delPath (t.getProp p) ps k)

/-- The expressions a watcher function may evaluate: literals, reactive
reads (`handle.path`), string concatenation and numeric increment cover the
functions appearing in the repository's tests and `computed` bodies. -/
inductive Expr where
  | lit (v : Value)
  | readPath (rid : Nat) (path : List PKey)
  | concat (a b : Expr)
  | addOne (e : Expr)
deriving Inhabited, Repr

/-- JS truthiness, as used by `if (...)` in the watcher functions of the
repository's tests. -/
def Value.truthy : Value → Bool
  | .vundefined => false
  | .vbool b => b
  | .vnum n => decide (n ≠ 0)
  | .vstr s => decide (s ≠ "")
  | .obj _ => true
  | .arr _ => true

/-- A watcher function body: reactive reads, reactive writes
(`handle.path.k = e`), sequencing, a truthiness conditional, and a throwing
statement (an error a user-supplied function raises). -/
inductive Prog where
  | skip
  | seq (a b : Prog)
  | readP (rid : Nat) (path : List PKey)
  | writeP (rid : Nat) (path : List PKey) (k : PKey) (e : Expr)
  | cond (e : Expr) (a b : Prog)
  | fail (msg : String)
deriving Inhabited, Repr

/-- One registered watcher (`watch`'s `watcher` object).  `runs` is a ghost
observation counting how often `fn` was invoked; it changes no behaviour. -/
structure Watcher where
  callCount : Nat
  dependencies : List Nat
  prog : Prog
  isAsync : Bool
  runs : Nat
deriving Inhabited, Repr

/-- The process-wide mutable state of the module: the underlying root values
and their symbol registries (`symbolsForProperties`, one per `reactive`
call), a fresh-symbol counter standing in for `Symbol(...)` identity, the
global `effects` set (insertion order kept), the watcher registry, and the
set of debounced watchers with a scheduled run. -/
structure RState where
  roots : List Value
  regs : List (List (PKey × Nat))
  nextSym : Nat
  effects : List Nat
  watchers : List Watcher
  pending : List Nat
deriving Inhabited, Repr

/-- Errors surfacing from the module: the `RecursiveWatch` error, an error a
user function throws (payload kept so propagation is observable), and fuel
exhaustion of the interpreter (never the program's own behaviour). -/
inductive RErr where
  | recursiveWatch
  | user (msg : String)
  | fuel
deriving DecidableEq, Repr

/-- `RECURSION_LIMIT` from the source. -/
def RECURSION_LIMIT : Nat := 100

def defaultWatcher : Watcher := ⟨0, [], .skip, false, 0⟩

def rootOf (s : RState) (rid : Nat) : Value := s.roots.getD rid .vundefined

def updateRoot (s : RState) (rid : Nat) (v : Value) : RState :=
  { s with roots := s.roots.set rid v }

/-- The symbol state on its own: the per-root `symbolsForProperties` maps
and the fresh-symbol counter that stands in for `Symbol(...)` identity. -/
structure Registry where
  regs : List (List (PKey × Nat))
  nextSym : Nat
deriving Inhabited, Repr

/-- `getSymbol` of `reactiveProxyHandler` on the symbol state: memoized per
registry, allocating a globally fresh symbol on first sight of a property. -/
def regGetSymbol (g : Registry) (rid : Nat) (k : PKey) : Nat × Registry :=
  let reg := g.regs.getD rid []
  match reg.lookup k with
  | some sym => (sym, g)
  | none =>
      (g.nextSym,
        ⟨g.regs.set rid (reg ++ [(k, g.nextSym)]), g.nextSym + 1⟩)

def RState.registry (s : RState) : Registry := ⟨s.regs, s.nextSym⟩

def setRegistry (s : RState) (g : Registry) : RState :=
  { s with regs := g.regs, nextSym := g.nextSym }

/-- `getSymbol` acting on the whole module state. -/
def getSymbol (s : RState) (rid : Nat) (k : PKey) : Nat × RState :=
  let (sym, g) := regGetSymbol s.registry rid k
  (sym, setRegistry s g)

/-- Insertion into an insertion-ordered set of symbols. -/
def insertSym (es : List Nat) (sym : Nat) : List Nat :=
  if sym ∈ es then es else es ++ [sym]

/-- `effects.add(symbol)`: a set, so a repeated symbol is not re-added. -/
def addEffect (s : RState) (sym : Nat) : RState :=
  { s with effects := insertSym s.effects sym }

/-- One proxy `get` trap on a handle of root `rid` whose target holds
`base`: resolve the key's symbol, record it into `effects`, read the value. -/
def getStep (s : RState) (rid : Nat) (base : Value) (k : PKey) : Value × RState :=
  let (sym, s₁) := getSymbol s rid k
  (base.getProp k, addEffect s₁ sym)

/-- A chain of `get` traps (`r.a.b.c`): every step shares the root's
registry, because the source hands `symbolsForProperties` unchanged to each
nested proxy it creates. -/
def getPath : RState → Nat → Value → List PKey → Value × RState
  | s, _, v, [] => (v, s)
  | s, rid, v, k :: ks =>
      let (v', s') := getStep s rid v k
      getPath s' rid v' ks

/-- A read through the wrapper starting at a root handle. -/
def userRead (s : RState) (rid : Nat) (path : List PKey) : Value × RState :=
  getPath s rid (rootOf s rid) path

/-- Expression evaluation; expressions only read, so no watcher can fire. -/
def strConcat : Value → Value → Value
  | .vstr a, .vstr b => .vstr (a ++ b)
  | _, _ => .vundefined

def valAddOne : Value → Value
  | .vnum n => .vnum (n + 1)
  | _ => .vundefined

def evalExpr : Expr → RState → Value × RState
  | .lit v, s => (v, s)
  | .readPath rid path, s => userRead s rid path
  | .concat a b, s =>
      let (va, s₁) := evalExpr a s
      let (vb, s₂) := evalExpr b s₁
      (strConcat va vb, s₂)
  | .addOne e, s =>
      let (v, s') := evalExpr e s
      (valAddOne v, s')

/-- The indices the `set`/`deleteProperty` traps notify: the source filters
the watcher array by `dependencies.has(symbol)` before invoking callbacks. -/
def triggeredIdxs (ws : List Watcher) (sym : Nat) : List Nat :=
  (List.range ws.length).filter fun i => sym ∈ (ws.getD i defaultWatcher).dependencies

/-- `debounce`'s `clearTimeout`/`setTimeout` pair: (re)schedule the
watcher's run for the next tick; an already pending run is superseded. -/
def schedulePending (s : RState) (i : Nat) : RState :=
  { s with pending := if i ∈ s.pending then s.pending else s.pending ++ [i] }

def setWatcher (s : RState) (i : Nat) (w : Watcher) : RState :=
  { s with watchers := s.watchers.set i w }

/-- The three re-entrant activities of the module: running a watcher
function body, notifying a filtered list of watchers (the `forEach` in the
`set` trap), and invoking one watcher's guarded callback.  A single fuelled
interpreter over this type keeps the recursion structural in `fuel`, so the
kernel can evaluate concrete executions. -/
inductive Job where
  | prog (p : Prog)
  | notif (idxs : List Nat)
  | callb (idx : Nat)

/-- The interpreter.

`prog`: `writeP` is the `set` trap — `get`s along the handle path, the
underlying write, then synchronous scan-and-notify of every watcher whose
dependencies hold the written property's symbol.

`notif`: `watchers.filter(...).forEach(({callback}) => callback())` — a
debounced watcher's stored callback only (re)schedules its run for the next
tick; a sync watcher's runs immediately.  An exception from one callback
aborts the remaining notifications, as a JS `forEach` would.

`callb`: the guarded `callback` of `watch` — bump `callCount`, throw
`RecursiveWatch` past `RECURSION_LIMIT`, clear the tracking context, run
`fn`, and on success replace `dependencies` with the keys collected during
this run.  (`runs` is the ghost invocation counter.) -/
def execJob : Nat → Job → RState → RState × Option RErr
  | 0, _, s => (s, some .fuel)
  | fuel + 1, .prog p, s =>
      match p with
      | .skip => (s, none)
      | .fail msg => (s, some (.user msg))
      | .readP rid path => ((userRead s rid path).2, none)
      | .writeP rid path k e =>
          let (_, s₁) := getPath s rid (rootOf s rid) path
          let (v, s₂) := evalExpr e s₁
          let (sym, s₃) := getSymbol s₂ rid k
          let s₄ := updateRoot s₃ rid (setPath (rootOf s₃ rid) path k v)
          execJob fuel (.notif (triggeredIdxs s₄.watchers sym)) s₄
      | .cond e a b =>
          let (v, s₁) := evalExpr e s
          if v.truthy then execJob fuel (.prog a) s₁
          else execJob fuel (.prog b) s₁
      | .seq a b =>
          match execJob fuel (.prog a) s with
          | (s₁, some err) => (s₁, some err)
          | (s₁, none) => execJob fuel (.prog b) s₁
  | fuel + 1, .notif idxs, s =>
      match idxs with
      | [] => (s, none)
      | i :: rest =>
          if (s.watchers.getD i defaultWatcher).isAsync then
            execJob fuel (.notif rest) (schedulePending s i)
          else
            match execJob fuel (.callb i) s with
            | (s₁, some err) => (s₁, some err)
            | (s₁, none) => execJob fuel (.notif rest) s₁
  | fuel + 1, .callb idx, s =>
      let w := s.watchers.getD idx defaultWatcher
      let c := w.callCount + 1
      let s₁ := setWatcher s idx { w with callCount := c }
      if RECURSION_LIMIT < c then (s₁, some .recursiveWatch)
      else
        let s₂ := { s₁ with effects := [] }
        let w₂ := s₂.watchers.getD idx defaultWatcher
        let s₃ := setWatcher s₂ idx { w₂ with runs := w₂.runs + 1 }
        match execJob fuel (.prog w.prog) s₃ with
        | (s₄, some err) => (s₄, some err)
        | (s₄, none) =>
            let w₄ := s₄.watchers.getD idx defaultWatcher
            (setWatcher s₄ idx { w₄ with dependencies := s₄.effects }, none)

/-- The state just before a watcher callback runs `fn`: `callCount` bumped,
tracking context cleared, ghost run counter bumped. -/
def callbackMid (s : RState) (idx : Nat) : RState :=
  let w := s.watchers.getD idx defaultWatcher
  let s₁ := setWatcher s idx { w with callCount := w.callCount + 1 }
  let s₂ := { s₁ with effects := [] }
  let w₂ := s₂.watchers.getD idx defaultWatcher
  setWatcher s₂ idx { w₂ with runs := w₂.runs + 1 }

/-- Run a watcher function body. -/
def runProg (fuel : Nat) (p : Prog) (s : RState) : RState × Option RErr :=
  execJob fuel (.prog p) s

/-- Notify a filtered list of watcher indices. -/
def notifyIdxs (fuel : Nat) (idxs : List Nat) (s : RState) : RState × Option RErr :=
  execJob fuel (.notif idxs) s

/-- Invoke one watcher's guarded callback. -/
def runCallback (fuel : Nat) (idx : Nat) (s : RState) : RState × Option RErr :=
  execJob fuel (.callb idx) s

/-- `watch(fn, { async })`: one synchronous guarded first run (the raw
`callback()` on line 54, before the watcher is pushed), then registration.
If the first run throws, the watcher is never registered. -/
def watchW (fuel : Nat) (p : Prog) (isAsync : Bool) (s : RState) :
    RState × Option RErr :=
  if RECURSION_LIMIT < 1 then (s, some .recursiveWatch)
  else
    let s₁ := { s with effects := [] }
    match runProg fuel p s₁ with
    | (s₂, some err) => (s₂, some err)
    | (s₂, none) =>
        ({ s₂ with watchers := s₂.watchers ++ [⟨1, s₂.effects, p, isAsync, 1⟩] },
          none)

/-- A top-level write through the wrapper (`reactiveObject.foo = v`). -/
def userWrite (fuel : Nat) (rid : Nat) (path : List PKey) (k : PKey)
    (v : Value) (s : RState) : RState × Option RErr :=
  runProg fuel (.writeP rid path k (.lit v)) s

/-- `delete` through the wrapper as `src/reactivity.js` behaves: the handler
defines no `deleteProperty` trap (the `// TODO: implement delete` comment),
so the proxy forwards the delete to the target — the property is removed,
no symbol is resolved and no watcher is notified. -/
def userDeleteMain (s : RState) (rid : Nat) (path : List PKey) (k : PKey) :
    RState :=
  let (_, s₁) := getPath s rid (rootOf s rid) path
  updateRoot s₁ rid (delPath (rootOf s₁ rid) path k)

/-- `deleteProperty` of the variant handler (embedded in
`src/reactivity.test.js`): resolve the symbol, remove the property, then
notify exactly as `set` does. -/
def userDeleteVariant (fuel : Nat) (s : RState) (rid : Nat) (path : List PKey)
    (k : PKey) : RState × Option RErr :=
  let (_, s₁) := getPath s rid (rootOf s rid) path
  let (sym, s₂) := getSymbol s₁ rid k
  let s₃ := updateRoot s₂ rid (delPath (rootOf s₂ rid) path k)
  notifyIdxs fuel (triggeredIdxs s₃.watchers sym) s₃

/-- `setInterval(() => watchers.forEach(w => w.callCount = 0), 0)`. -/
def resetCounts (ws : List Watcher) : List Watcher :=
  ws.map fun w => { w with callCount := 0 }

/-- Run the debounced callbacks whose timeout fires this tick. -/
def runPending (fuel : Nat) (idxs : List Nat) (s : RState) :
    RState × Option RErr :=
  match idxs with
  | [] => (s, none)
  | i :: rest =>
      match runCallback fuel i s with
      | (s₁, some err) => (s₁, some err)
      | (s₁, none) => runPending fuel rest s₁

/-- One tick of the host event queue: the interval resets every watcher's
`callCount`, then the pending zero-delay debounce timeouts fire in order. -/
def tick (fuel : Nat) (s : RState) : RState × Option RErr :=
  let sched := s.pending
  runPending fuel sched { s with watchers := resetCounts s.watchers, pending := [] }

/-- `reactive(value)`: a fresh root with a fresh, empty symbol registry. -/
def mkReactive (s : RState) (v : Value) : Nat × RState :=
  (s.roots.length,
    { s with roots := s.roots ++ [v], regs := s.regs ++ [[]] })

/-- `ref(value)` = `reactive({ value })`. -/
def mkRef (s : RState) (v : Value) : Nat × RState :=
  mkReactive s (.obj [("value", v)])

/-- `computed(fn)`: an undefined ref kept current by an internal sync
watcher that assigns `fn()` into `.value` (a `set`, not a tracked read). -/
def mkComputed (fuel : Nat) (s : RState) (fn : Expr) :
    (Nat × RState) × Option RErr :=
  let (rid, s₁) := mkRef s .vundefined
  let (s₂, e₂) := watchW fuel (.writeP rid [] (.str "value") fn) false s₁
  ((rid, s₂), e₂)

def initState : RState := ⟨[], [], 0, [], [], []⟩

mutual

/-- `JSON.stringify` walking a wrapped value: each own key of the target is
read through the proxy's `get` trap (resolving its symbol and recording it
into `effects`); a record or sequence child comes back wrapped — sharing
the root's registry — and is walked recursively; scalars are emitted as is.
`v` is the current handle's target. -/
def stringifyVal (v : Value) (s : RState) (rid : Nat) : Value × RState :=
  match v with
  | .obj fs =>
      let (fs', s') := stringifyFields fs s rid
      (.obj fs', s')
  | .arr es =>
      let (es', s') := stringifyElems es s rid 0
      (.arr es', s')
  | v => (v, s)

def stringifyFields (fs : List (String × Value)) (s : RState) (rid : Nat) :
    List (String × Value) × RState :=
  match fs with
  | [] => ([], s)
  | (k, v) :: rest =>
      let (sym, s₁) := getSymbol s rid (.str k)
      let s₂ := addEffect s₁ sym
      let (v', s₃) := stringifyVal v s₂ rid
      let (rest', s₄) := stringifyFields rest s₃ rid
      ((k, v') :: rest', s₄)

def stringifyElems (es : List Value) (s : RState) (rid : Nat) (i : Nat) :
    List Value × RState :=
  match es with
  | [] => ([], s)
  | v :: rest =>
      let (sym, s₁) := getSymbol s rid (.idx i)
      let s₂ := addEffect s₁ sym
      let (v', s₃) := stringifyVal v s₂ rid
      let (rest', s₄) := stringifyElems rest s₃ rid (i + 1)
      (v' :: rest', s₄)

end

/-- Serialize a root handle to a plain JSON-like value, exactly as
`JSON.parse(JSON.stringify(reactiveObject))` observes it. -/
def serializeHandle (s : RState) (rid : Nat) : Value :=
  (stringifyVal (rootOf s rid) s rid).1

/-! Reference functions used to *state* properties about the code (they are
the spec side of the theorems, independent of the interpreter). -/

/-- A function body that performs no reactive write. -/
def Prog.writeFree : Prog → Bool
  | .skip => true
  | .fail _ => true
  | .readP _ _ => true
  | .writeP _ _ _ _ => false
  | .cond _ a b => a.writeFree && b.writeFree
  | .seq a b => a.writeFree && b.writeFree

/-- A function body that never throws. -/
def Prog.failFree : Prog → Bool
  | .skip => true
  | .fail _ => false
  | .readP _ _ => true
  | .writeP _ _ _ _ => true
  | .cond _ a b => a.failFree && b.failFree
  | .seq a b => a.failFree && b.failFree

/-- An upper bound on the interpreter steps a write-free body needs. -/
def Prog.cost : Prog → Nat
  | .skip => 1
  | .fail _ => 1
  | .readP _ _ => 1
  | .writeP _ _ _ _ => 1
  | .cond _ a b => 1 + a.cost + b.cost
  | .seq a b => 1 + a.cost + b.cost

/-- The value an expression denotes, read off the store directly (reactive
reads do not change any stored value). -/
def exprVal (roots : List Value) : Expr → Value
  | .lit v => v
  | .readPath rid path => navigate (roots.getD rid .vundefined) path
  | .concat a b => strConcat (exprVal roots a) (exprVal roots b)
  | .addOne e => valAddOne (exprVal roots e)

/-- The symbols a chain of `get` traps resolves, in order. -/
def pathSyms (g : Registry) (rid : Nat) : List PKey → List Nat × Registry
  | [] => ([], g)
  | k :: ks =>
      let (sym, g₁) := regGetSymbol g rid k
      let (rest, g₂) := pathSyms g₁ rid ks
      (sym :: rest, g₂)

/-- The symbols an expression reads, in order. -/
def exprReadSyms : Expr → Registry → List Nat × Registry
  | .lit _, g => ([], g)
  | .readPath rid path, g => pathSyms g rid path
  | .concat a b, g =>
      let (xs, g₁) := exprReadSyms a g
      let (ys, g₂) := exprReadSyms b g₁
      (xs ++ ys, g₂)
  | .addOne e, g => exprReadSyms e g

/-- The symbols a write-free function body reads during a run over the
store `roots`, in order: the reference for "the set of keys read through
reactive gets during that run". -/
def progReadSyms (roots : List Value) : Prog → Registry → List Nat × Registry
  | .skip, g => ([], g)
  | .fail _, g => ([], g)
  | .readP rid path, g => pathSyms g rid path
  | .writeP rid path _ e, g =>
      let (xs, g₁) := pathSyms g rid path
      let (ys, g₂) := exprReadSyms e g₁
      (xs ++ ys, g₂)
  | .cond e a b, g =>
      let (xs, g₁) := exprReadSyms e g
      if (exprVal roots e).truthy then
        let (ys, g₂) := progReadSyms roots a g₁
        (xs ++ ys, g₂)
      else
        let (ys, g₂) := progReadSyms roots b g₁
        (xs ++ ys, g₂)
  | .seq a b, g =>
      let (xs, g₁) := progReadSyms roots a g
      let (ys, g₂) := progReadSyms roots b g₁
      (xs ++ ys, g₂)

/-- Collapse an ordered read trace to the insertion-ordered set the
tracking context accumulates. -/
def dedupSyms (syms : List Nat) : List Nat := syms.foldl insertSym []

/-- The symbols recorded in every registry, flattened. -/
def Registry.allSyms (g : Registry) : List Nat :=
  (g.regs.map (fun r => r.map Prod.snd)).flatten

/-- Well-formedness of the symbol state: all recorded symbols are pairwise
distinct (JS `Symbol(...)` identity) and below the fresh counter.  It holds
for every state the module can reach. -/
def Registry.WFsyms (g : Registry) : Prop :=
  g.allSyms.Nodup ∧ ∀ x ∈ g.allSyms, x < g.nextSym

/-! Concrete scenarios, following the repository's test suite. -/

def fooKey : PKey := .str "foo"

/-- C1: `reactive({a:{one:1}, b:{one:2}})` with a sync watcher reading only
`root.a.one`. -/
def c1Root : Value := .obj [("a", .obj [("one", .vnum 1)]), ("b", .obj [("one", .vnum 2)])]

def c1reg : RState × Option RErr :=
  watchW 50 (.readP 0 [.str "a", .str "one"]) false (mkReactive initState c1Root).2

def c1afterWrite : RState × Option RErr :=
  userWrite 50 0 [.str "b"] (.str "one") (.vnum 9) c1reg.1

/-- A symbol state with two roots: root 0 already saw property `one`
(symbol 0), root 1 has a fresh empty registry. -/
def c1twoRoots : Registry := ⟨[[(.str "one", 0)], []], 1⟩

/-- C2: the test's self-mutating watcher, `() => { reactiveObject.foo += 1 }`
in sync mode. -/
def selfProg : Prog := .writeP 0 [] fooKey (.addOne (.readPath 0 [fooKey]))

def c2reg (v : Value) : RState × Option RErr :=
  watchW 50 selfProg false (mkReactive initState (.obj [("foo", v)])).2

/-- The module state during the self-trigger loop: `foo` holds `v`, the one
sync watcher has counted `c` calls and `r` runs. -/
def c2mk (c : Nat) (v : Value) (e pd : List Nat) (r : Nat) : RState :=
  ⟨[.obj [("foo", v)]], [[(fooKey, 0)]], 1, e, [⟨c, [0], selfProg, false, r⟩], pd⟩

/-- C3: a debounced watcher reading `foo`. -/
def c3reg : RState × Option RErr :=
  watchW 50 (.readP 0 [fooKey]) true (mkReactive initState (.obj [("foo", .vnum 1)])).2

def c3write (v : Value) (s : RState) : RState := (userWrite 50 0 [] fooKey v s).1

def c3writes : List Value → RState → RState
  | [], s => s
  | v :: vs, s => c3writes vs (c3write v s)

/-- The state after at least one triggering write within the macrotask:
`foo` holds the last written value, one run so far, one pending re-run. -/
def c3mid (w : Value) : RState :=
  ⟨[.obj [("foo", w)]], [[(fooKey, 0)]], 1, [0], [⟨1, [0], .readP 0 [fooKey], true, 1⟩], [0]⟩

/-- The state after the pending debounced run fires at a tick: two runs,
nothing pending. -/
def c3fin (u : Value) : RState :=
  ⟨[.obj [("foo", u)]], [[(fooKey, 0)]], 1, [0], [⟨1, [0], .readP 0 [fooKey], true, 2⟩], []⟩

/-- C4: the deletion test — `reactive({foo:'bar'})` with a watcher reading
`foo` (sync here so the re-run is observable without a tick). -/
def c4reg : RState × Option RErr :=
  watchW 50 (.readP 0 [fooKey]) false (mkReactive initState (.obj [("foo", .vstr "bar")])).2

def c4afterDelete : RState := userDeleteMain c4reg.1 0 [] fooKey

def c4afterSet : RState × Option RErr := userWrite 50 0 [] fooKey (.vstr "x") c4reg.1

def c4afterVariantDelete : RState × Option RErr := userDeleteVariant 50 c4reg.1 0 [] fooKey

/-- C5: watcher B reads `p`, writes `q` (a dependency of the earlier sync
watcher A), then reads `s` — A's mid-run notification clobbers the shared
tracking context. -/
def c5root : Value := .obj [("p", .vnum 1), ("q", .vnum 2), ("s", .vnum 3)]

def c5prog : Prog :=
  .seq (.seq (.readP 0 [.str "p"]) (.writeP 0 [] (.str "q") (.lit (.vnum 5))))
    (.readP 0 [.str "s"])

def c5regA : RState × Option RErr :=
  watchW 50 (.readP 0 [.str "q"]) false (mkReactive initState c5root).2

def c5regB : RState × Option RErr := watchW 50 c5prog false c5regA.1

/-- C6: `foo = ref('foo')`, `bar = ref('bar')`,
`foobar = computed(() => foo.value + bar.value)`. -/
def c6foo : Nat × RState := mkRef initState (.vstr "foo")

def c6bar : Nat × RState := mkRef c6foo.2 (.vstr "bar")

def c6fn : Expr := .concat (.readPath 0 [.str "value"]) (.readPath 1 [.str "value"])

def c6foobar : (Nat × RState) × Option RErr := mkComputed 50 c6bar.2 c6fn

def c6after : RState × Option RErr :=
  userWrite 50 1 [] (.str "value") (.vstr "baz") c6foobar.1.2

/-- C7: a watcher function that reads `foo` and throws only when `foo` is
truthy — it succeeds at registration (`foo` is 0) and throws when
re-triggered by `foo = 1`. -/
def c7prog : Prog := .cond (.readPath 0 [fooKey]) (.fail "boom") .skip

def c7reg : RState × Option RErr :=
  watchW 50 c7prog false (mkReactive initState (.obj [("foo", .vnum 0)])).2

def c7trig : RState × Option RErr := userWrite 50 0 [] fooKey (.vnum 1) c7reg.1

/-- C8: a watch whose first run writes `foo` while the self-triggering
watcher of the C2 scenario is already registered with `foo` among its
dependencies. -/
def c8prog : Prog := .seq (.readP 0 [fooKey]) (.writeP 0 [] fooKey (.lit (.vnum 9)))

def c8attempt : RState × Option RErr := watchW 400 c8prog false (c2reg (.vnum 1)).1

/-- C8 witness scenario: a watch whose function writes a property it also
reads, registered while no watcher exists at all. -/
def c8solo : RState × Option RErr :=
  watchW 50 c8prog false (mkReactive initState (.obj [("foo", .vnum 1)])).2

/-- C10: a sync watcher reading `foo`, then a write of an arbitrary value —
including the value already stored. -/
def c10reg : RState × Option RErr :=
  watchW 50 (.readP 0 [fooKey]) false (mkReactive initState (.obj [("foo", .vnum 1)])).2

def c10afterWrite (v : Value) : RState × Option RErr := userWrite 50 0 [] fooKey v c10reg.1

/-! Theorems. -/

theorem lookup_append_self {reg : List (PKey × Nat)} {k : PKey}
    (h : reg.lookup k = none) (n : Nat) :
    (reg ++ [(k, n)]).lookup k = some n := by
  induction reg with
  | nil => simp [List.lookup]
  | cons p rest ih =>
      obtain ⟨a, b⟩ := p
      rw [List.cons_append, List.lookup_cons]
      rw [List.lookup_cons] at h
      cases hka : (k == a) with
      | true => simp [hka] at h
      | false => simp only [hka] at h ⊢; exact ih h

theorem lookup_snd_mem {reg : List (PKey × Nat)} {k : PKey} {a : Nat}
    (h : reg.lookup k = some a) : a ∈ reg.map Prod.snd := by
  induction reg with
  | nil => simp [List.lookup] at h
  | cons p rest ih =>
      obtain ⟨x, y⟩ := p
      rw [List.lookup_cons] at h
      cases hkx : (k == x) with
      | true => simp only [hkx] at h; simp only [Option.some.injEq] at h; simp [h]
      | false => simp only [hkx] at h; simp [ih h]

theorem lookup_some_lt {g : Registry} {rid : Nat} {k : PKey} {a : Nat}
    (h : (g.regs.getD rid []).lookup k = some a) : rid < g.regs.length := by
  by_contra hge
  rw [List.getD_eq_getElem?_getD, List.getElem?_eq_none (by omega)] at h
  simp [List.lookup] at h

theorem getD_eq_getElem_of_lt {g : Registry} {rid : Nat} (h : rid < g.regs.length) :
    g.regs.getD rid [] = g.regs[rid] := by
  rw [List.getD_eq_getElem?_getD, List.getElem?_eq_getElem h]; rfl

theorem getD_lookup_mem {g : Registry} {rid : Nat} {k : PKey} {a : Nat}
    (h : (g.regs.getD rid []).lookup k = some a) : a ∈ g.allSyms := by
  have hr := lookup_some_lt h
  rw [getD_eq_getElem_of_lt hr] at h
  refine List.mem_flatten.2 ⟨(g.regs[rid]).map Prod.snd, ?_, lookup_snd_mem h⟩
  exact List.mem_map_of_mem _ (List.getElem_mem hr)

theorem allSyms_disjoint {g : Registry} (hnd : g.allSyms.Nodup) {i j : Nat} (hij : i ≠ j)
    (hi : i < g.regs.length) (hj : j < g.regs.length) {a : Nat}
    (ha : a ∈ (g.regs[i]).map Prod.snd) (hb : a ∈ (g.regs[j]).map Prod.snd) : False := by
  rw [Registry.allSyms, List.nodup_flatten] at hnd
  have hpw := hnd.2
  rw [List.pairwise_iff_getElem] at hpw
  rcases Nat.lt_or_ge i j with hlt | hge
  · have hd := hpw i j (by simpa) (by simpa) hlt
    rw [List.getElem_map, List.getElem_map] at hd
    exact hd ha hb
  · have hlt : j < i := by omega
    have hd := hpw j i (by simpa) (by simpa) hlt
    rw [List.getElem_map, List.getElem_map] at hd
    exact hd hb ha

theorem regGetSymbol_memo (g : Registry) (rid : Nat) (k : PKey) (hrid : rid < g.regs.length) :
    regGetSymbol (regGetSymbol g rid k).2 rid k = regGetSymbol g rid k := by
  cases h : (g.regs.getD rid []).lookup k with
  | some sym => simp only [regGetSymbol, h]
  | none =>
      have hset : ((g.regs.set rid (g.regs.getD rid [] ++ [(k, g.nextSym)])).getD rid []) =
          g.regs.getD rid [] ++ [(k, g.nextSym)] := by
        rw [List.getD_eq_getElem?_getD, List.getElem?_set_self (by simpa)]; rfl
      simp only [regGetSymbol, h, hset, lookup_append_self h]

theorem regGetSymbol_cross {g : Registry} (hWF : g.WFsyms) {rid₁ rid₂ : Nat} (hne : rid₁ ≠ rid₂)
    (k₁ k₂ : PKey) :
    (regGetSymbol (regGetSymbol g rid₁ k₁).2 rid₂ k₂).1 ≠ (regGetSymbol g rid₁ k₁).1 := by
  cases h₁ : (g.regs.getD rid₁ []).lookup k₁ with
  | some a =>
      simp only [regGetSymbol, h₁]
      cases h₂ : (g.regs.getD rid₂ []).lookup k₂ with
      | some b =>
          simp only [h₂]
          intro hba
          subst hba
          have hr₁ := lookup_some_lt h₁
          have hr₂ := lookup_some_lt h₂
          rw [getD_eq_getElem_of_lt hr₁] at h₁
          rw [getD_eq_getElem_of_lt hr₂] at h₂
          exact allSyms_disjoint hWF.1 (Ne.symm hne) hr₂ hr₁
            (lookup_snd_mem h₂) (lookup_snd_mem h₁)
      | none =>
          simp only [h₂]
          have := hWF.2 a (getD_lookup_mem h₁)
          omega
  | none =>
      simp only [regGetSymbol, h₁]
      have hgd : ((g.regs.set rid₁ (g.regs.getD rid₁ [] ++ [(k₁, g.nextSym)])).getD rid₂ []) =
          g.regs.getD rid₂ [] := by
        rw [List.getD_eq_getElem?_getD, List.getElem?_set_ne hne, ← List.getD_eq_getElem?_getD]
      cases h₂ : (g.regs.getD rid₂ []).lookup k₂ with
      | some b =>
          simp only [hgd, h₂]
          have := hWF.2 b (getD_lookup_mem h₂)
          omega
      | none =>
          simp only [hgd, h₂]
          omega

/-- C1 (amended): (i) two reads of the same property on the same wrapped
object yield the identical Key and leave the symbol state unchanged
(`getSymbol` is memoized); (ii) in any well-formed symbol state, a
same-named (or any) property resolved on a *different reactive root*'s
registry yields a different Key; (iii) a write notifies exactly the
watchers whose recorded dependencies contain the written property's Key.
(Unlike the original claim, a same-named property at a different nesting
path under the *same* reactive root aliases to the same Key, because
nested proxies share the root's registry — see `c1_counterexample`.) -/
theorem c1_keys_amended :
    (∀ (g : Registry) (rid : Nat) (k : PKey), rid < g.regs.length →
        regGetSymbol (regGetSymbol g rid k).2 rid k = regGetSymbol g rid k) ∧
    (∀ (g : Registry) (rid₁ rid₂ : Nat) (k₁ k₂ : PKey), g.WFsyms → rid₁ ≠ rid₂ →
        (regGetSymbol (regGetSymbol g rid₁ k₁).2 rid₂ k₂).1 ≠ (regGetSymbol g rid₁ k₁).1) ∧
    (∀ (ws : List Watcher) (sym i : Nat),
        i ∈ triggeredIdxs ws sym ↔
          i < ws.length ∧ sym ∈ (ws.getD i defaultWatcher).dependencies) :=
  ⟨fun g rid k h => regGetSymbol_memo g rid k h,
   fun _ _ _ k₁ k₂ hwf hne => regGetSymbol_cross hwf hne k₁ k₂,
   by intro ws sym i
      simp [triggeredIdxs, List.mem_filter, List.mem_range]⟩

/-- C1 witness: on the concrete two-root symbol state, re-reading `one` on
root 0 returns the same Key and state, and resolving `one` on root 1 (a
different reactive root) yields a Key different from root 0's. -/
theorem c1_witness :
    regGetSymbol (regGetSymbol c1twoRoots 0 (.str "one")).2 0 (.str "one") =
      regGetSymbol c1twoRoots 0 (.str "one") ∧
    (regGetSymbol (regGetSymbol c1twoRoots 1 (.str "one")).2 0 (.str "one")).1 ≠
      (regGetSymbol c1twoRoots 1 (.str "one")).1 :=
  ⟨c1_keys_amended.1 c1twoRoots 0 (.str "one") (by decide),
   c1_keys_amended.2.1 c1twoRoots 1 0 (.str "one") (.str "one")
     ⟨by decide, by decide⟩ (by decide)⟩

/-- The `set` trap's filter over a one-watcher registry. -/
theorem triggeredIdxs_singleton (w : Watcher) (sym : Nat) :
    triggeredIdxs [w] sym = if sym ∈ w.dependencies then [0] else [] := by
  by_cases h : sym ∈ w.dependencies <;>
    simp [triggeredIdxs, List.range_succ, List.filter, List.getD, h]

/-- Key lemma for the recursion guard: invoking the self-mutating sync
watcher's callback while its `callCount` is `c` ends in `RecursiveWatch`
after the remaining `k = RECURSION_LIMIT - c` self-triggered invocations,
for any stored value, tracking context, pending set and run count. -/
theorem selfTrigger_errors (k : Nat) :
    ∀ c v e pd r fuel, c + k = RECURSION_LIMIT → 3 * k + 1 ≤ fuel →
      (execJob fuel (.callb 0) (c2mk c v e pd r)).2 = some .recursiveWatch := by
  induction k with
  | zero =>
      intro c v e pd r fuel hc hf
      obtain ⟨f, rfl⟩ : ∃ f, fuel = f + 1 := ⟨fuel - 1, by omega⟩
      have hc' : c = RECURSION_LIMIT := by omega
      subst hc'
      simp [execJob, c2mk, RECURSION_LIMIT, setWatcher]
  | succ k ih =>
      intro c v e pd r fuel hc hf
      obtain ⟨f, rfl⟩ : ∃ f, fuel = f + 3 := ⟨fuel - 3, by omega⟩
      have hguard : ¬ (RECURSION_LIMIT < c + 1) := by omega
      have h := ih (c + 1) (valAddOne v) [0] pd (r + 1) f (by omega) (by omega)
      rcases hx : execJob f (.callb 0) (c2mk (c + 1) (valAddOne v) [0] pd (r + 1)) with ⟨t, oe⟩
      rw [hx] at h
      simp only at h
      subst h
      simp only [c2mk, selfProg, fooKey] at hx
      simp [execJob, c2mk, setWatcher, hguard, selfProg, getPath, getStep, getSymbol,
        regGetSymbol, RState.registry, setRegistry, addEffect, insertSym, userRead,
        evalExpr, rootOf, updateRoot, Value.getProp, assocGet, Value.setProp, setPath,
        assocSet, triggeredIdxs_singleton, schedulePending, fooKey, hx]

/-- Registering the self-mutating watcher runs it once: `foo` is bumped,
the dependency on `foo`'s symbol recorded, `callCount` is 1. -/
theorem c2reg_state (v : Value) : c2reg v = (c2mk 1 (valAddOne v) [0] [] 1, none) := rfl

/-- C2: for the sync watcher whose function unconditionally writes the
`foo` it also reads (`reactiveObject.foo += 1`), any later write of any
value `w` to `foo` — the watcher's recorded dependency — terminates by
raising `RecursiveWatch` to the caller of that write (for every starting
value `v` and any interpreter fuel from 300 up, so the loop neither
recurses unboundedly nor stops silently). -/
theorem c2_recursive_watch (v w : Value) (fuel : Nat) (hfuel : 300 ≤ fuel) :
    (userWrite fuel 0 [] fooKey w (c2reg v).1).2 = some .recursiveWatch := by
  obtain ⟨f, rfl⟩ : ∃ f, fuel = f + 2 := ⟨fuel - 2, by omega⟩
  have h := selfTrigger_errors 99 1 w [0] [] 1 f (by decide) (by omega)
  rcases hx : execJob f (.callb 0) (c2mk 1 w [0] [] 1) with ⟨t, oe⟩
  rw [hx] at h
  simp only at h
  subst h
  simp only [c2mk, selfProg, fooKey] at hx
  rw [c2reg_state]
  simp [userWrite, runProg, execJob, c2mk, setWatcher, selfProg, getPath, getStep,
    getSymbol, regGetSymbol, RState.registry, setRegistry, addEffect, insertSym,
    userRead, evalExpr, rootOf, updateRoot, Value.getProp, assocGet, Value.setProp,
    setPath, assocSet, triggeredIdxs_singleton, schedulePending, fooKey, hx]

/-- C2 witness: the concrete instance `foo = 1`, write `5`, fuel 300. -/
theorem c2_witness :
    (userWrite 300 0 [] fooKey (.vnum 5) (c2reg (.vnum 1)).1).2 = some .recursiveWatch :=
  c2_recursive_watch (.vnum 1) (.vnum 5) 300 (by decide)

/-- C1 counterexample: with `root = reactive({a:{one:1}, b:{one:2}})` and a
sync watcher that only read `root.a.one`, the write `root.b.one = 9` *does*
re-run that watcher (`runs` goes from 1 to 2): the nested proxies share the
root's `symbolsForProperties`, so `a.one` and `b.one` resolve to the same
Key, while the claim says a write at a different nesting path never re-runs
the watcher. -/
theorem c1_counterexample :
    (c1reg.1.watchers.getD 0 defaultWatcher).runs = 1 ∧
    c1afterWrite.2 = none ∧
    (c1afterWrite.1.watchers.getD 0 defaultWatcher).runs = 2 :=
  ⟨rfl, rfl, rfl⟩

/-- One triggering write on the freshly registered debounced watcher only
schedules: the state becomes `c3mid v`. -/
theorem c3write_reg (v : Value) : c3write v c3reg.1 = c3mid v := rfl

/-- A further triggering write before the tick supersedes the scheduled
run and leaves a single pending entry (`clearTimeout` + `setTimeout`). -/
theorem c3write_mid (v w : Value) : c3write w (c3mid v) = c3mid w := rfl

/-- Any number of further triggering writes within the macrotask coalesce:
the state stays in `c3mid` form, holding the last written value. -/
theorem c3writes_mid (vs : List Value) (w : Value) :
    c3writes vs (c3mid w) = c3mid (vs.foldl (fun _ x => x) w) := by
  induction vs generalizing w with
  | nil => rfl
  | cons v vs ih => simp [c3writes, c3write_mid, ih]

/-- The tick after the coalesced writes performs the single deferred run. -/
theorem c3tick (u : Value) : tick 50 (c3mid u) = (c3fin u, none) := rfl

/-- C3: a debounced watcher runs once, synchronously, at registration
(`runs = 1`, nothing pending); after any `N ≥ 1` triggering writes within
the same macrotask (`v :: vs`) it has still run only once with exactly one
scheduled re-run; the next tick re-runs it exactly once (`runs = 2`,
nothing left pending), and a further tick without new triggers runs
nothing. -/
theorem c3_debounce (v : Value) (vs : List Value) :
    ((c3reg.1.watchers.getD 0 defaultWatcher).runs = 1 ∧ c3reg.1.pending = []) ∧
    ((c3writes (v :: vs) c3reg.1).watchers.getD 0 defaultWatcher).runs = 1 ∧
    (c3writes (v :: vs) c3reg.1).pending = [0] ∧
    (tick 50 (c3writes (v :: vs) c3reg.1)).2 = none ∧
    ((tick 50 (c3writes (v :: vs) c3reg.1)).1.watchers.getD 0 defaultWatcher).runs = 2 ∧
    ((tick 50 (tick 50 (c3writes (v :: vs) c3reg.1)).1).1.watchers.getD 0 defaultWatcher).runs = 2 := by
  have hmid : c3writes (v :: vs) c3reg.1 = c3mid (vs.foldl (fun _ x => x) v) := by
    rw [show c3writes (v :: vs) c3reg.1 = c3writes vs (c3write v c3reg.1) from rfl,
      c3write_reg, c3writes_mid]
  rw [hmid, c3tick]
  exact ⟨⟨rfl, rfl⟩, rfl, rfl, rfl, rfl, rfl⟩

/-- C4, evaluated at the failing input: after `reactive({foo:'bar'})` with a
watcher that read `foo` (one run so far), `delete reactiveObject.foo` under
`src/reactivity.js` removes the property but re-runs no watcher (no
`deleteProperty` trap — the `TODO` on line 85), while a `set` of `foo`
re-runs the watcher, and the variant handler embedded in
`src/reactivity.test.js` deletes *and* notifies exactly like `set`. -/
theorem c4_delete_divergence :
    (c4reg.1.watchers.getD 0 defaultWatcher).runs = 1 ∧
    rootOf c4afterDelete 0 = .obj [] ∧
    (c4afterDelete.watchers.getD 0 defaultWatcher).runs = 1 ∧
    (c4afterSet.1.watchers.getD 0 defaultWatcher).runs = 2 ∧
    rootOf c4afterVariantDelete.1 0 = .obj [] ∧
    (c4afterVariantDelete.1.watchers.getD 0 defaultWatcher).runs = 2 ∧
    c4afterVariantDelete.2 = none :=
  ⟨rfl, rfl, rfl, rfl, rfl, rfl, rfl⟩

/-- C5 counterexample: watcher B's function reads `p` (symbol 1), writes
`q` (symbol 0, a dependency of the earlier sync watcher A), then reads `s`
(symbol 2).  A's mid-run notification clears the shared tracking context,
so after B's completed run its recorded dependencies are `[0, 2]` — they
*include* `q`, which B never read, and *miss* `p`, which B did read — while
the keys B's function actually read during the run are `[1, 2]`. -/
theorem c5_counterexample :
    c5regB.2 = none ∧
    (c5regB.1.watchers.getD 1 defaultWatcher).dependencies = [0, 2] ∧
    dedupSyms (progReadSyms c5regA.1.roots c5prog c5regA.1.registry).1 = [1, 2] ∧
    1 ∉ (c5regB.1.watchers.getD 1 defaultWatcher).dependencies ∧
    0 ∉ dedupSyms (progReadSyms c5regA.1.roots c5prog c5regA.1.registry).1 :=
  ⟨rfl, rfl, rfl, by decide, by decide⟩

/-- C6: with `foo = ref('foo')`, `bar = ref('bar')` and
`foobar = computed(() => foo.value + bar.value)`, `foobar.value` is
`'foobar'` immediately after creation, and directly after the synchronous
write `bar.value = 'baz'` — with no tick in between — `foobar.value` is
`'foobaz'`. -/
theorem c6_computed_sync :
    c6foobar.2 = none ∧
    (userRead c6foobar.1.2 2 [.str "value"]).1 = .vstr "foobar" ∧
    c6after.2 = none ∧
    (userRead c6after.1 2 [.str "value"]).1 = .vstr "foobaz" :=
  ⟨rfl, rfl, rfl, rfl⟩

theorem execJob_callb_succ (f idx : Nat) (s : RState) :
    execJob (f + 1) (.callb idx) s =
      if RECURSION_LIMIT < (s.watchers.getD idx defaultWatcher).callCount + 1 then
        (setWatcher s idx { s.watchers.getD idx defaultWatcher with
            callCount := (s.watchers.getD idx defaultWatcher).callCount + 1 },
          some .recursiveWatch)
      else
        match execJob f (.prog (s.watchers.getD idx defaultWatcher).prog)
            (callbackMid s idx) with
        | (s₄, some err) => (s₄, some err)
        | (s₄, none) =>
            (setWatcher s₄ idx { s₄.watchers.getD idx defaultWatcher with
                dependencies := s₄.effects }, none) := rfl

theorem getD_set_dependencies (ws : List Watcher) (idx : Nat) (w' : Watcher)
    (hdep : w'.dependencies = (ws.getD idx defaultWatcher).dependencies) :
    ((ws.set idx w').getD idx defaultWatcher).dependencies =
      (ws.getD idx defaultWatcher).dependencies := by
  by_cases h : idx < ws.length
  · rw [List.getD_eq_getElem?_getD, List.getElem?_set_self (by simpa)]
    simpa using hdep
  · rw [List.set_eq_of_length_le (by omega)]

theorem callbackMid_deps (s : RState) (idx : Nat) :
    ((callbackMid s idx).watchers.getD idx defaultWatcher).dependencies =
      (s.watchers.getD idx defaultWatcher).dependencies := by
  simp only [callbackMid, setWatcher]
  refine Eq.trans (getD_set_dependencies _ _ _ ?_) (getD_set_dependencies _ _ _ ?_) <;> rfl

theorem getPath_core (path : List PKey) : ∀ (s : RState) (rid : Nat) (v : Value),
    (getPath s rid v path).2.roots = s.roots ∧
    (getPath s rid v path).2.watchers = s.watchers ∧
    (getPath s rid v path).2.pending = s.pending := by
  induction path with
  | nil => intro s rid v; exact ⟨rfl, rfl, rfl⟩
  | cons k ks ih =>
      intro s rid v
      obtain ⟨h1, h2, h3⟩ :=
        ih (addEffect (getSymbol s rid k).2 (getSymbol s rid k).1) rid (v.getProp k)
      exact ⟨h1.trans rfl, h2.trans rfl, h3.trans rfl⟩

theorem evalExpr_core (e : Expr) : ∀ (s : RState),
    (evalExpr e s).2.roots = s.roots ∧
    (evalExpr e s).2.watchers = s.watchers ∧
    (evalExpr e s).2.pending = s.pending := by
  induction e with
  | lit v => intro s; exact ⟨rfl, rfl, rfl⟩
  | readPath rid path => intro s; exact getPath_core path s rid _
  | concat a b iha ihb =>
      intro s
      obtain ⟨a1, a2, a3⟩ := iha s
      obtain ⟨b1, b2, b3⟩ := ihb (evalExpr a s).2
      exact ⟨b1.trans a1, b2.trans a2, b3.trans a3⟩
  | addOne e ih => intro s; exact ih s

theorem runProg_writeFree_core (p : Prog) (hwf : p.writeFree = true) :
    ∀ (fuel : Nat) (s : RState),
    (execJob fuel (.prog p) s).1.roots = s.roots ∧
    (execJob fuel (.prog p) s).1.watchers = s.watchers ∧
    (execJob fuel (.prog p) s).1.pending = s.pending := by
  induction p with
  | skip =>
      intro fuel s
      cases fuel with
      | zero => exact ⟨rfl, rfl, rfl⟩
      | succ f => exact ⟨rfl, rfl, rfl⟩
  | fail msg =>
      intro fuel s
      cases fuel with
      | zero => exact ⟨rfl, rfl, rfl⟩
      | succ f => exact ⟨rfl, rfl, rfl⟩
  | readP rid path =>
      intro fuel s
      cases fuel with
      | zero => exact ⟨rfl, rfl, rfl⟩
      | succ f => exact getPath_core path s rid (rootOf s rid)
  | writeP rid path k e => simp [Prog.writeFree] at hwf
  | cond e a b iha ihb =>
      rw [Prog.writeFree, Bool.and_eq_true] at hwf
      intro fuel s
      cases fuel with
      | zero => exact ⟨rfl, rfl, rfl⟩
      | succ f =>
          obtain ⟨e1, e2, e3⟩ := evalExpr_core e s
          simp only [execJob]
          split
          · obtain ⟨h1, h2, h3⟩ := iha hwf.1 f (evalExpr e s).2
            exact ⟨h1.trans e1, h2.trans e2, h3.trans e3⟩
          · obtain ⟨h1, h2, h3⟩ := ihb hwf.2 f (evalExpr e s).2
            exact ⟨h1.trans e1, h2.trans e2, h3.trans e3⟩
  | seq a b iha ihb =>
      rw [Prog.writeFree, Bool.and_eq_true] at hwf
      intro fuel s
      cases fuel with
      | zero => exact ⟨rfl, rfl, rfl⟩
      | succ f =>
          obtain ⟨a1, a2, a3⟩ := iha hwf.1 f s
          simp only [execJob]
          rcases h : execJob f (.prog a) s with ⟨s₁, oe⟩
          rw [h] at a1 a2 a3
          cases oe with
          | some err => exact ⟨a1, a2, a3⟩
          | none =>
              obtain ⟨b1, b2, b3⟩ := ihb hwf.2 f s₁
              exact ⟨b1.trans a1, b2.trans a2, b3.trans a3⟩

theorem callback_error_keeps_deps (fuel idx : Nat) (s : RState)
    (hwf : (s.watchers.getD idx defaultWatcher).prog.writeFree = true)
    (herr : (runCallback fuel idx s).2 ≠ none) :
    ((runCallback fuel idx s).1.watchers.getD idx defaultWatcher).dependencies =
      (s.watchers.getD idx defaultWatcher).dependencies := by
  cases fuel with
  | zero => rfl
  | succ f =>
      rw [runCallback, execJob_callb_succ]
      by_cases hg : RECURSION_LIMIT < (s.watchers.getD idx defaultWatcher).callCount + 1
      · rw [if_pos hg]
        exact getD_set_dependencies _ _ _ rfl
      · rw [if_neg hg]
        rcases hx : execJob f (.prog (s.watchers.getD idx defaultWatcher).prog)
            (callbackMid s idx) with ⟨s₄, oe⟩
        cases oe with
        | none =>
            exfalso
            apply herr
            rw [runCallback, execJob_callb_succ, if_neg hg, hx]
        | some err =>
            have hws : s₄.watchers = (callbackMid s idx).watchers := by
              have h2 := (runProg_writeFree_core _ hwf f (callbackMid s idx)).2.1
              rw [hx] at h2
              exact h2
            simp only
            rw [hws]
            exact callbackMid_deps s idx

/-- C7: (general part) whenever a watcher whose function performs no
reactive write has a run that ends in an error — its own throw, the guard,
or fuel — its recorded dependencies are left exactly as they were before
the run (the keys collected during the partial run are not committed).
(Concrete part, the spec's scenario) the `c7prog` watcher registers
successfully with dependencies `[0]`; the triggering write `foo = 1` then
propagates the function's own error `user "boom"` unmodified to the
caller of the write, the dependencies remain `[0]`, and the underlying
write itself has still been performed. -/
theorem c7_error_propagation :
    (∀ (fuel idx : Nat) (s : RState),
        (s.watchers.getD idx defaultWatcher).prog.writeFree = true →
        (runCallback fuel idx s).2 ≠ none →
        ((runCallback fuel idx s).1.watchers.getD idx defaultWatcher).dependencies =
          (s.watchers.getD idx defaultWatcher).dependencies) ∧
    c7reg.2 = none ∧
    (c7reg.1.watchers.getD 0 defaultWatcher).dependencies = [0] ∧
    c7trig.2 = some (.user "boom") ∧
    (c7trig.1.watchers.getD 0 defaultWatcher).dependencies = [0] ∧
    rootOf c7trig.1 0 = .obj [("foo", .vnum 1)] :=
  ⟨callback_error_keeps_deps, rfl, rfl, rfl, rfl, rfl⟩

/-- C7 witness: the general part applied to the concrete erroring run. -/
theorem c7_witness :
    ((runCallback 40 0 (updateRoot c7reg.1 0 (.obj [("foo", .vnum 1)]))).1.watchers.getD 0
        defaultWatcher).dependencies =
      ((updateRoot c7reg.1 0 (.obj [("foo", .vnum 1)])).watchers.getD 0
        defaultWatcher).dependencies :=
  c7_error_propagation.1 40 0 _ (by decide) (by decide)

/-- Notifying from a state with an empty watcher registry does nothing. -/
theorem notif_from_state (f : Nat) (s : RState) (sym : Nat) (h : s.watchers = []) :
    (execJob f (.notif (triggeredIdxs s.watchers sym)) s).1.watchers = [] ∧
    (execJob f (.notif (triggeredIdxs s.watchers sym)) s).2 ≠ some .recursiveWatch := by
  rw [h]
  cases f with
  | zero => exact ⟨h, by simp [execJob]⟩
  | succ f => exact ⟨h, by simp [execJob, triggeredIdxs]⟩

/-- With no registered watcher, running any function body can trigger no
callback: the registry stays empty and `RecursiveWatch` cannot arise. -/
theorem execJob_noWatchers : ∀ (fuel : Nat) (job : Job) (s : RState), s.watchers = [] →
    (match job with
     | .prog _ => True
     | .notif idxs => idxs = []
     | .callb _ => False) →
    (execJob fuel job s).1.watchers = [] ∧
    (execJob fuel job s).2 ≠ some .recursiveWatch := by
  intro fuel
  induction fuel with
  | zero => intro job s h _; exact ⟨h, by simp [execJob]⟩
  | succ f ih =>
      intro job s h hj
      match job with
      | .callb idx => exact absurd hj (by simp)
      | .notif idxs =>
          have hnil : idxs = [] := hj
          subst hnil
          exact ⟨h, by simp [execJob]⟩
      | .prog p =>
          cases p with
          | skip => exact ⟨h, by simp [execJob]⟩
          | fail msg => exact ⟨h, by simp [execJob]⟩
          | readP rid path =>
              refine ⟨?_, by simp [execJob]⟩
              simp only [execJob]
              exact ((getPath_core path s rid (rootOf s rid)).2.1).trans h
          | writeP rid path k e =>
              simp only [execJob]
              refine notif_from_state f _ _ ?_
              show (evalExpr e (getPath s rid (rootOf s rid) path).2).2.watchers = []
              rw [(evalExpr_core e _).2.1, (getPath_core path s rid _).2.1, h]
          | cond e a b =>
              simp only [execJob]
              have he : (evalExpr e s).2.watchers = [] := by
                rw [(evalExpr_core e _).2.1, h]
              split
              · exact ih (.prog a) (evalExpr e s).2 he trivial
              · exact ih (.prog b) (evalExpr e s).2 he trivial
          | seq a b =>
              simp only [execJob]
              obtain ⟨a1, a2⟩ := ih (.prog a) s h trivial
              rcases hx : execJob f (.prog a) s with ⟨s₁, oe⟩
              rw [hx] at a1 a2
              cases oe with
              | some err =>
                  refine ⟨a1, ?_⟩
                  intro hcon
                  exact a2 (by simpa using hcon)
              | none => exact ih (.prog b) s₁ a1 trivial

/-- C8 (amended): when no watcher is registered yet, the single
synchronous run `watch(fn, …)` performs at registration never raises
`RecursiveWatch`, for *every* function body `fn` — even one that writes
properties that become its own dependencies — because the new watcher is
not yet in the registry during that run, so its guard cannot be reached.
(If *other* watchers are already registered, the first run can still
propagate `RecursiveWatch` from one of them — see `c8_counterexample`.) -/
theorem c8_first_run_safe (fuel : Nat) (p : Prog) (mode : Bool) (s : RState)
    (h : s.watchers = []) :
    (watchW fuel p mode s).2 ≠ some .recursiveWatch := by
  rw [watchW, if_neg (by decide)]
  dsimp only
  obtain ⟨-, h2⟩ :=
    execJob_noWatchers fuel (.prog p) { s with effects := [] } h trivial
  rcases hx : execJob fuel (.prog p) { s with effects := [] } with ⟨s₂, oe⟩
  rw [show runProg fuel p { s with effects := [] } =
      (s₂, oe) from hx]
  rw [hx] at h2
  cases oe with
  | some err => simpa using h2
  | none => simp

/-- C8 witness: registering the self-dependency-writing `c8prog` on a
fresh reactive object with no other watchers raises no error. -/
theorem c8_witness : c8solo.2 ≠ some .recursiveWatch :=
  c8_first_run_safe 50 c8prog false (mkReactive initState (.obj [("foo", .vnum 1)])).2 rfl

mutual

/-- Walking a wrapped value through the `get` traps returns exactly the
underlying value. -/
theorem stringifyVal_fst (v : Value) (s : RState) (rid : Nat) :
    (stringifyVal v s rid).1 = v := by
  cases v with
  | obj fs =>
      have h := stringifyFields_fst fs s rid
      rw [stringifyVal]
      rcases hx : stringifyFields fs s rid with ⟨fs', s'⟩
      rw [hx] at h
      simp only at h ⊢
      rw [h]
  | arr es =>
      have h := stringifyElems_fst es s rid 0
      rw [stringifyVal]
      rcases hx : stringifyElems es s rid 0 with ⟨es', s'⟩
      rw [hx] at h
      simp only at h ⊢
      rw [h]
  | vundefined => rfl
  | vnum n => rfl
  | vstr str => rfl
  | vbool b => rfl
termination_by (sizeOf v, 0)

theorem stringifyFields_fst (fs : List (String × Value)) (s : RState) (rid : Nat) :
    (stringifyFields fs s rid).1 = fs := by
  match fs with
  | [] => rfl
  | (k, v) :: rest =>
      rw [stringifyFields]
      rcases h1 : getSymbol s rid (.str k) with ⟨sym, s₁⟩
      dsimp only
      rcases h2 : stringifyVal v (addEffect s₁ sym) rid with ⟨v', s₃⟩
      rcases h3 : stringifyFields rest s₃ rid with ⟨rest', s₄⟩
      have hv := stringifyVal_fst v (addEffect s₁ sym) rid
      have hr := stringifyFields_fst rest s₃ rid
      rw [h2] at hv
      rw [h3] at hr
      simp only at hv hr ⊢
      rw [hv, hr]
termination_by (sizeOf fs, 1)

theorem stringifyElems_fst (es : List Value) (s : RState) (rid : Nat) (i : Nat) :
    (stringifyElems es s rid i).1 = es := by
  match es with
  | [] => rfl
  | v :: rest =>
      rw [stringifyElems]
      rcases h1 : getSymbol s rid (.idx i) with ⟨sym, s₁⟩
      dsimp only
      rcases h2 : stringifyVal v (addEffect s₁ sym) rid with ⟨v', s₃⟩
      rcases h3 : stringifyElems rest s₃ rid (i + 1) with ⟨rest', s₄⟩
      have hv := stringifyVal_fst v (addEffect s₁ sym) rid
      have hr := stringifyElems_fst rest s₃ rid (i + 1)
      rw [h2] at hv
      rw [h3] at hr
      simp only at hv hr ⊢
      rw [hv, hr]
termination_by (sizeOf es, 1)

end

/-- C9: serializing a wrapped value through the proxy's `get` traps — as
`JSON.stringify` does — reproduces exactly the underlying plain data, for
every record or sequence value, nested ones included, with no wrapper
artifacts; in particular a freshly wrapped `reactive(v)` serializes back
to `v` itself, so parsing the serialized form yields the original data. -/
theorem c9_serialization_roundtrip :
    (∀ (v : Value) (s : RState) (rid : Nat), (stringifyVal v s rid).1 = v) ∧
    (∀ (v : Value) (s : RState),
      serializeHandle (mkReactive s v).2 (mkReactive s v).1 = v) := by
  refine ⟨stringifyVal_fst, fun v s => ?_⟩
  rw [serializeHandle, stringifyVal_fst, rootOf]
  simp [mkReactive]

/-- A chain of `get` traps returns the navigated value, allocates exactly
the path's symbols, and adds them in order to the tracking context. -/
theorem getPath_spec (path : List PKey) : ∀ (s : RState) (rid : Nat) (v : Value),
    getPath s rid v path =
      (navigate v path,
        { setRegistry s (pathSyms s.registry rid path).2 with
            effects := (pathSyms s.registry rid path).1.foldl insertSym s.effects }) := by
  induction path with
  | nil => intro s rid v; rfl
  | cons k ks ih =>
      intro s rid v
      exact (ih _ rid _).trans rfl

/-- Expression evaluation returns the denoted value and records exactly
the expression's read symbols into the tracking context. -/
theorem evalExpr_spec (e : Expr) : ∀ (s : RState),
    evalExpr e s =
      (exprVal s.roots e,
        { setRegistry s (exprReadSyms e s.registry).2 with
            effects := (exprReadSyms e s.registry).1.foldl insertSym s.effects }) := by
  induction e with
  | lit v => intro s; rfl
  | readPath rid path => intro s; exact getPath_spec path s rid _
  | concat a b iha ihb =>
      intro s
      show (strConcat (evalExpr a s).1 (evalExpr b (evalExpr a s).2).1,
        (evalExpr b (evalExpr a s).2).2) = _
      rw [iha s, ihb]
      show (strConcat (exprVal s.roots a) (exprVal s.roots b), _) = _
      rw [Prod.mk.injEq]
      refine ⟨rfl, ?_⟩
      show ({ setRegistry s ((exprReadSyms b ((exprReadSyms a s.registry).2)).2) with
          effects := (exprReadSyms b ((exprReadSyms a s.registry).2)).1.foldl insertSym
            ((exprReadSyms a s.registry).1.foldl insertSym s.effects) } : RState) = _
      rw [← List.foldl_append]
      rfl
  | addOne e ih =>
      intro s
      show (valAddOne (evalExpr e s).1, (evalExpr e s).2) = _
      rw [ih s]
      rfl

theorem Prog.cost_pos (p : Prog) : 1 ≤ p.cost := by
  cases p <;> simp [Prog.cost] <;> omega

/-- A write-free, throw-free function body runs to completion without
triggering any watcher: the store is untouched and the tracking context
ends as the fold of exactly the keys read during the run. -/
theorem runProg_spec (p : Prog) (hwf : p.writeFree = true) (hff : p.failFree = true) :
    ∀ (fuel : Nat) (s : RState), p.cost ≤ fuel →
      execJob fuel (.prog p) s =
        ({ setRegistry s (progReadSyms s.roots p s.registry).2 with
            effects := (progReadSyms s.roots p s.registry).1.foldl insertSym s.effects },
          none) := by
  induction p with
  | skip =>
      intro fuel s hc
      cases fuel with
      | zero => simp [Prog.cost] at hc
      | succ f => rfl
  | fail msg => simp [Prog.failFree] at hff
  | writeP rid path k e => simp [Prog.writeFree] at hwf
  | readP rid path =>
      intro fuel s hc
      cases fuel with
      | zero => simp [Prog.cost] at hc
      | succ f =>
          show ((getPath s rid (rootOf s rid) path).2, none) = _
          rw [getPath_spec]
          rfl
  | cond e a b iha ihb =>
      rw [Prog.writeFree, Bool.and_eq_true] at hwf
      rw [Prog.failFree, Bool.and_eq_true] at hff
      intro fuel s hc
      rw [Prog.cost] at hc
      cases fuel with
      | zero => omega
      | succ f =>
          show (if (evalExpr e s).1.truthy then execJob f (.prog a) (evalExpr e s).2
            else execJob f (.prog b) (evalExpr e s).2) = _
          rw [evalExpr_spec e s]
          dsimp only
          by_cases ht : (exprVal s.roots e).truthy
          · rw [if_pos ht]
            rw [iha hwf.1 hff.1 f _ (by omega)]
            show ({ setRegistry s
                ((progReadSyms s.roots a ((exprReadSyms e s.registry).2)).2) with
              effects := (progReadSyms s.roots a ((exprReadSyms e s.registry).2)).1.foldl
                insertSym ((exprReadSyms e s.registry).1.foldl insertSym s.effects) },
              none) = _
            rw [← List.foldl_append]
            show _ = ({ setRegistry s (progReadSyms s.roots (.cond e a b) s.registry).2 with
              effects := (progReadSyms s.roots (.cond e a b) s.registry).1.foldl insertSym
                s.effects }, none)
            rw [show progReadSyms s.roots (.cond e a b) s.registry =
              ((exprReadSyms e s.registry).1 ++
                  (progReadSyms s.roots a ((exprReadSyms e s.registry).2)).1,
                (progReadSyms s.roots a ((exprReadSyms e s.registry).2)).2) from by
              rw [progReadSyms]
              dsimp only
              rw [if_pos ht]]
          · rw [if_neg ht]
            rw [ihb hwf.2 hff.2 f _ (by omega)]
            show ({ setRegistry s
                ((progReadSyms s.roots b ((exprReadSyms e s.registry).2)).2) with
              effects := (progReadSyms s.roots b ((exprReadSyms e s.registry).2)).1.foldl
                insertSym ((exprReadSyms e s.registry).1.foldl insertSym s.effects) },
              none) = _
            rw [← List.foldl_append]
            show _ = ({ setRegistry s (progReadSyms s.roots (.cond e a b) s.registry).2 with
              effects := (progReadSyms s.roots (.cond e a b) s.registry).1.foldl insertSym
                s.effects }, none)
            rw [show progReadSyms s.roots (.cond e a b) s.registry =
              ((exprReadSyms e s.registry).1 ++
                  (progReadSyms s.roots b ((exprReadSyms e s.registry).2)).1,
                (progReadSyms s.roots b ((exprReadSyms e s.registry).2)).2) from by
              rw [progReadSyms]
              dsimp only
              rw [if_neg ht]]
  | seq a b iha ihb =>
      rw [Prog.writeFree, Bool.and_eq_true] at hwf
      rw [Prog.failFree, Bool.and_eq_true] at hff
      intro fuel s hc
      rw [Prog.cost] at hc
      cases fuel with
      | zero => omega
      | succ f =>
          show (match execJob f (.prog a) s with
            | (s₁, some err) => (s₁, some err)
            | (s₁, none) => execJob f (.prog b) s₁) = _
          rw [iha hwf.1 hff.1 f s (by omega)]
          show execJob f (.prog b) _ = _
          rw [ihb hwf.2 hff.2 f _ (by omega)]
          show ({ setRegistry s
              ((progReadSyms s.roots b ((progReadSyms s.roots a s.registry).2)).2) with
            effects := (progReadSyms s.roots b ((progReadSyms s.roots a s.registry).2)).1.foldl
              insertSym ((progReadSyms s.roots a s.registry).1.foldl insertSym s.effects) },
            none) = _
          rw [← List.foldl_append]
          rfl

theorem getD_set_self_watch (ws : List Watcher) (idx : Nat) (w' : Watcher)
    (h : idx < ws.length) : (ws.set idx w').getD idx defaultWatcher = w' := by
  rw [List.getD_eq_getElem?_getD, List.getElem?_set_self (by simpa)]; rfl

theorem deps_after_commit (s₄ : RState) (idx : Nat) (h : idx < s₄.watchers.length) :
    ((setWatcher s₄ idx { s₄.watchers.getD idx defaultWatcher with
        dependencies := s₄.effects }).watchers.getD idx defaultWatcher).dependencies =
      s₄.effects := by
  show ((s₄.watchers.set idx _).getD idx defaultWatcher).dependencies = _
  rw [getD_set_self_watch _ _ _ h]

/-- C5 (amended): for every watcher whose function performs no reactive
write — so no other watcher can be triggered mid-run and the shared
tracking context is not clobbered — every completed (guard-passing,
sufficiently fuelled) run replaces the watcher's dependency set with
*exactly* the deduplicated list of Keys its function read during that run,
discarding whatever was recorded by earlier runs.  (When the function's own
writes do trigger another sync watcher mid-run, the global `effects` set is
cleared by the nested run and the equality fails — see
`c5_counterexample`.) -/
theorem c5_amended_deps (fuel idx : Nat) (s : RState)
    (hwf : (s.watchers.getD idx defaultWatcher).prog.writeFree = true)
    (hff : (s.watchers.getD idx defaultWatcher).prog.failFree = true)
    (hguard : (s.watchers.getD idx defaultWatcher).callCount + 1 ≤ RECURSION_LIMIT)
    (hidx : idx < s.watchers.length)
    (hcost : (s.watchers.getD idx defaultWatcher).prog.cost ≤ fuel) :
    (runCallback (fuel + 1) idx s).2 = none ∧
    ((runCallback (fuel + 1) idx s).1.watchers.getD idx defaultWatcher).dependencies =
      dedupSyms (progReadSyms s.roots (s.watchers.getD idx defaultWatcher).prog s.registry).1 := by
  rw [runCallback, execJob_callb_succ, if_neg (by omega),
    runProg_spec _ hwf hff fuel (callbackMid s idx) hcost]
  dsimp only
  refine ⟨rfl, ?_⟩
  rw [deps_after_commit _ idx (by simpa [callbackMid, setWatcher, setRegistry, List.length_set] using hidx)]
  rfl

/-- C5 witness: the read-only watcher of the `c10reg` scenario re-run once;
its dependencies become exactly the one key it read. -/
theorem c5_witness :
    (runCallback 6 0 c10reg.1).2 = none ∧
    ((runCallback 6 0 c10reg.1).1.watchers.getD 0 defaultWatcher).dependencies =
      dedupSyms (progReadSyms c10reg.1.roots
        (c10reg.1.watchers.getD 0 defaultWatcher).prog c10reg.1.registry).1 :=
  c5_amended_deps 5 0 c10reg.1 (by decide) (by decide) (by decide) (by decide) (by decide)

set_option maxRecDepth 40000 in
/-- C8 counterexample: the registration-time run *can* raise
`RecursiveWatch` — not from the new watcher's own guard, but propagated
from a previously registered watcher.  With the C2 self-triggering watcher
already live (its dependencies contain `foo`'s Key), registering a new
watch whose function writes `foo` raises `RecursiveWatch` during the first
synchronous run, and the new watcher is never registered (the registry
still holds exactly one watcher). -/
theorem c8_counterexample :
    c8attempt.2 = some .recursiveWatch ∧ c8attempt.1.watchers.length = 1 :=
  ⟨rfl, rfl⟩

/-- C10: the `set` trap performs no equality check: writing *any* value `v`
to `foo` — including `vnum 1`, the value already stored — re-runs the sync
watcher whose dependencies contain `foo`'s Key (`runs` goes from 1 to 2),
and stores `v`. -/
theorem c10_no_equality_guard :
    (c10reg.1.watchers.getD 0 defaultWatcher).runs = 1 ∧
    rootOf c10reg.1 0 = .obj [("foo", .vnum 1)] ∧
    ∀ v : Value,
      ((c10afterWrite v).1.watchers.getD 0 defaultWatcher).runs = 2 ∧
      rootOf (c10afterWrite v).1 0 = .obj [("foo", v)] ∧
      (c10afterWrite v).2 = none :=
  ⟨rfl, rfl, fun _ => ⟨rfl, rfl, rfl⟩⟩

end Reactivity
